import Mathlib

/-!
A shallow embedding of the `pydantic-ai-chat` server (files `server/main.py` and
`server/vercel_ai_types.py`) together with theorems settling the frozen claims
about its specification.

Modelling conventions:
* JSON values are modelled by the inductive type `J`.  JSON `null` is not a
  constructor of `J`: in the Python source every optional / `Any`-typed field
  holds either a real value or Python `None`, and `model_dump_json(exclude_none=True)`
  omits `None`-valued fields from the wire format, so `None` is represented here
  as `Option.none` of an `Option`-typed field and payload values are modelled
  null-free.
* `Any`-typed pydantic fields (tool inputs/outputs, message metadata, data-part
  payloads) become `Option J` (`none` = Python `None`).
* `ProviderMetadata = dict[str, dict[str, Any]]` becomes the association-list
  type `PMeta`.
* The asynchronous generator pipeline of `main.py` is pure at the level the
  claims speak about: the event-stream handler is a fold over the (arrival
  ordered) list of agent events, producing the list of emitted chunks.
-/

/-- JSON values (null-free, see the header comment). -/
inductive J where
  | bool (b : Bool)
  | num (n : Int)
  | str (s : String)
  | arr (elems : List J)
  | obj (fields : List (String × J))

/-- `ProviderMetadata = dict[str, dict[str, JSONValue]]` from `vercel_ai_types.py`. -/
abbrev PMeta : Type := List (String × List (String × J))

/-- The `args` payload of a tool call in `pydantic_ai`: `str | dict | None`
(the surrounding `Option` models the `None` case).  A non-string JSON payload
is carried together with its `json.dumps` serialization, which is all the
translator ever reads from it. -/
inductive ToolArgs where
  | str (s : String)
  | jsonDump (s : String)

/-- The model-response parts matched by `event_stream_handler` under
`PartStartEvent` (`main.py` lines 73-97).  `other` stands for every part shape
the `match` statement does not mention (silently dropped). -/
inductive ModelPart where
  | text (content : String)
  | toolCall (toolName : String) (toolCallId : String) (args : Option ToolArgs)
  | builtinToolCall (toolName : String) (toolCallId : String) (args : Option ToolArgs)
  | builtinToolReturn (toolName : String) (toolCallId : String) (content : Option J)
  | thinking (content : String)
  | other

/-- The delta shapes matched under `PartDeltaEvent` (`main.py` lines 99-113).
`ThinkingPartDelta.content_delta` and `ToolCallPartDelta.tool_call_id` are
optional upstream. -/
inductive PartDelta where
  | textDelta (contentDelta : String)
  | thinkingDelta (contentDelta : Option String)
  | toolCallDelta (argsDelta : Option ToolArgs) (toolCallId : Option String)
  | other

/-- `FunctionToolResultEvent.result` is `ToolReturnPart | RetryPromptPart`
(`main.py` lines 121-126). -/
inductive ToolResultPart where
  | toolReturn (toolName : String) (toolCallId : String) (content : Option J)
  | retryPrompt (toolName : String) (toolCallId : String) (content : Option J)

/-- `pydantic_ai.messages.AgentStreamEvent`, restricted to the fields the
handler reads.  `finalResult` models `FinalResultEvent` whose `tool_name` and
`tool_call_id` are `str | None`. -/
inductive AgentStreamEvent where
  | partStart (part : ModelPart)
  | partDelta (delta : PartDelta)
  | finalResult (toolName : Option String) (toolCallId : Option String)
  | functionToolCall
  | functionToolResult (result : ToolResultPart)
  | builtinToolCall (toolName : String) (toolCallId : String) (args : Option ToolArgs)
  | builtinToolResult (toolCallId : String) (content : Option J)

/-- The 23-kind chunk union `UIMessageChunk` of `vercel_ai_types.py`
(lines 272-496).  Constructors are named after the source classes and carry
the source fields in declaration order; `Literal` discriminators are implicit
in the constructor. -/
inductive UIMessageChunk where
  | TextStartChunk (id : String) (providerMetadata : Option PMeta)
  | TextDeltaChunk (delta : String) (id : String) (providerMetadata : Option PMeta)
  | TextEndChunk (id : String) (providerMetadata : Option PMeta)
  | ReasoningStartChunk (id : String) (providerMetadata : Option PMeta)
  | ReasoningDeltaChunk (id : String) (delta : String) (providerMetadata : Option PMeta)
  | ReasoningEndChunk (id : String) (providerMetadata : Option PMeta)
  | ErrorChunk (errorText : String)
  | ToolInputAvailableChunk (toolCallId : String) (toolName : String) (input : Option J)
      (providerExecuted : Option Bool) (providerMetadata : Option PMeta) (dynamic : Option Bool)
  | ToolInputErrorChunk (toolCallId : String) (toolName : String) (input : Option J)
      (providerExecuted : Option Bool) (providerMetadata : Option PMeta) (dynamic : Option Bool)
      (errorText : String)
  | ToolOutputAvailableChunk (toolCallId : String) (output : Option J)
      (providerExecuted : Option Bool) (dynamic : Option Bool) (preliminary : Option Bool)
  | ToolOutputErrorChunk (toolCallId : String) (errorText : String)
      (providerExecuted : Option Bool) (dynamic : Option Bool)
  | ToolInputStartChunk (toolCallId : String) (toolName : String)
      (providerExecuted : Option Bool) (dynamic : Option Bool)
  | ToolInputDeltaChunk (toolCallId : String) (inputTextDelta : String)
  | SourceUrlChunk (sourceId : String) (url : String) (title : Option String)
      (providerMetadata : Option PMeta)
  | SourceDocumentChunk (sourceId : String) (mediaType : String) (title : String)
      (filename : Option String) (providerMetadata : Option PMeta)
  | FileChunk (url : String) (mediaType : String)
  | DataUIMessageChunk (type : String) (data : Option J)
  | StartStepChunk
  | FinishStepChunk
  | StartChunk (messageId : Option String) (messageMetadata : Option J)
  | FinishChunk (messageMetadata : Option J)
  | AbortChunk
  | MessageMetadataChunk (messageMetadata : Option J)

/-- Python truthiness of a `str | None` value: `None` and the empty string are falsy. -/
def optTruthy : Option String → Bool
  | none => false
  | some s => !(s = "")

/-- The two `isinstance(args, str) / args is not None` branches shared by each
tool-argument emission site in `event_stream_handler`: a string arg is sent
verbatim, a non-`None` non-string arg is sent as `json.dumps(args)`, and `None`
produces no delta chunk. -/
def argsDeltaChunks (toolCallId : String) : Option ToolArgs → List UIMessageChunk
  | none => []
  | some (.str s) => [.ToolInputDeltaChunk toolCallId s]
  | some (.jsonDump s) => [.ToolInputDeltaChunk toolCallId s]

/-- Chunks emitted for one `PartStartEvent` (`main.py` lines 73-97). -/
def chunksOfPartStart (messageId : String) : ModelPart → List UIMessageChunk
  | .text content =>
      [.TextStartChunk messageId none, .TextDeltaChunk content messageId none]
  | .toolCall toolName toolCallId args =>
      .ToolInputStartChunk toolCallId toolName none none :: argsDeltaChunks toolCallId args
  | .builtinToolCall toolName toolCallId args =>
      .ToolInputStartChunk toolCallId toolName none none :: argsDeltaChunks toolCallId args
  | .builtinToolReturn _ toolCallId content =>
      [.ToolOutputAvailableChunk toolCallId content none none none]
  | .thinking content =>
      [.ReasoningStartChunk messageId none, .ReasoningDeltaChunk messageId content none]
  | .other => []

/-- Chunks emitted for one `PartDeltaEvent` (`main.py` lines 99-113).
The thinking case is guarded by Python truthiness (`if content_delta:`); the
tool-call case substitutes the empty string for a missing id. -/
def chunksOfPartDelta (messageId : String) : PartDelta → List UIMessageChunk
  | .textDelta contentDelta => [.TextDeltaChunk contentDelta messageId none]
  | .thinkingDelta none => []
  | .thinkingDelta (some s) =>
      if s = "" then [] else [.ReasoningDeltaChunk messageId s none]
  | .toolCallDelta args toolCallId => argsDeltaChunks (toolCallId.getD "") args
  | .other => []

/-- Chunks emitted for one agent event by `event_stream_handler`
(`main.py` lines 71-137); the emission never depends on the
`final_result_tool_id` state variable. -/
def stepChunks (messageId : String) : AgentStreamEvent → List UIMessageChunk
  | .partStart part => chunksOfPartStart messageId part
  | .partDelta delta => chunksOfPartDelta messageId delta
  | .finalResult toolName toolCallId =>
      if optTruthy toolCallId && optTruthy toolName then
        [.ToolInputStartChunk (toolCallId.getD "") (toolName.getD "") none none]
      else []
  | .functionToolCall => []
  | .functionToolResult (.toolReturn _ toolCallId content) =>
      [.ToolOutputAvailableChunk toolCallId content none none none]
  | .functionToolResult (.retryPrompt _ toolCallId content) =>
      [.ToolOutputAvailableChunk toolCallId content none none none]
  | .builtinToolCall toolName toolCallId args =>
      .ToolInputStartChunk toolCallId toolName none none :: argsDeltaChunks toolCallId args
  | .builtinToolResult toolCallId content =>
      [.ToolOutputAvailableChunk toolCallId content none none none]

/-- Evolution of the `final_result_tool_id` variable across one event
(`main.py` lines 70, 114-117): only a `FinalResultEvent` whose id and name are
both truthy overwrites it. -/
def stepFinal (acc : Option String) : AgentStreamEvent → Option String
  | .finalResult toolName toolCallId =>
      if optTruthy toolCallId && optTruthy toolName then toolCallId else acc
  | _ => acc

/-- The closing chunks sent after the event loop (`main.py` lines 139-140):
`if final_result_tool_id:` is a Python truthiness test. -/
def closingChunks : Option String → List UIMessageChunk
  | none => []
  | some s =>
      if s = "" then [] else [.ToolOutputAvailableChunk s none none none none]

/-- The recorded final-result tool-call id after consuming all events. -/
def finalToolId (events : List AgentStreamEvent) : Option String :=
  events.foldl stepFinal none

/-- The full chunk sequence produced by `event_stream_handler` for one agent
event sequence (`main.py` lines 68-141): `start`, then the per-event chunks in
arrival order, then the closing `tool-output-available` if a final-result id
was recorded, then `finish`. -/
def translateEvents (messageId : String) (events : List AgentStreamEvent) : List UIMessageChunk :=
  .StartChunk none none ::
    (events.flatMap (stepChunks messageId) ++
      closingChunks (finalToolId events) ++ [.FinishChunk none])

/-- The synthetic diagnostic stream `text_response` (`main.py` lines 155-163). -/
def text_response (messageId : String) (text : String) : List UIMessageChunk :=
  [.StartChunk none none, .StartStepChunk, .ReasoningStartChunk messageId none,
   .ReasoningDeltaChunk messageId text none, .FinishStepChunk, .FinishChunk none]

/-- `UIMessagePart`, the request-side part union of `vercel_ai_types.py`
(lines 34-246), constructors named after the source classes.  For the two
tool-part families the dynamic `type` string (`f"tool-{NAME}"`) is the first
field. -/
inductive UIMessagePart where
  | TextUIPart (text : String) (state : Option String) (providerMetadata : Option PMeta)
  | ReasoningUIPart (text : String) (state : Option String) (providerMetadata : Option PMeta)
  | ToolInputStreamingPart (type : String) (toolCallId : String) (input : Option J)
      (providerExecuted : Option Bool)
  | ToolInputAvailablePart (type : String) (toolCallId : String) (input : Option J)
      (providerExecuted : Option Bool) (callProviderMetadata : Option PMeta)
  | ToolOutputAvailablePart (type : String) (toolCallId : String) (input : Option J)
      (output : Option J) (providerExecuted : Option Bool) (callProviderMetadata : Option PMeta)
      (preliminary : Option Bool)
  | ToolOutputErrorPart (type : String) (toolCallId : String) (input : Option J)
      (rawInput : Option J) (errorText : String) (providerExecuted : Option Bool)
      (callProviderMetadata : Option PMeta)
  | DynamicToolInputStreamingPart (toolName : String) (toolCallId : String) (input : Option J)
  | DynamicToolInputAvailablePart (toolName : String) (toolCallId : String) (input : Option J)
      (callProviderMetadata : Option PMeta)
  | DynamicToolOutputAvailablePart (toolName : String) (toolCallId : String) (input : Option J)
      (output : Option J) (callProviderMetadata : Option PMeta) (preliminary : Option Bool)
  | DynamicToolOutputErrorPart (toolName : String) (toolCallId : String) (input : Option J)
      (errorText : String) (callProviderMetadata : Option PMeta)
  | SourceUrlUIPart (sourceId : String) (url : String) (title : Option String)
      (providerMetadata : Option PMeta)
  | SourceDocumentUIPart (sourceId : String) (mediaType : String) (title : String)
      (filename : Option String) (providerMetadata : Option PMeta)
  | FileUIPart (mediaType : String) (filename : Option String) (url : String)
      (providerMetadata : Option PMeta)
  | StepStartUIPart
  | DataUIPart (type : String) (id : Option String) (data : Option J)

/-- `UIMessage.role`. -/
inductive Role where
  | system
  | user
  | assistant

/-- `UIMessage` (`vercel_ai_types.py` lines 249-269). -/
structure UIMessage where
  id : String
  role : Role
  metadata : Option J
  parts : List UIMessagePart

/-- The validated request body: the discriminated union
`SubmitMessage | RegenerateMessage` of `main.py` lines 21-39. -/
inductive RequestData where
  | submitMessage (id : String) (messages : List UIMessage) (model : String) (webSearch : Bool)
  | regenerateMessage (id : String) (messages : List UIMessage) (messageId : String)

/-- The `messages` field common to both request variants. -/
def RequestData.messages : RequestData → List UIMessage
  | .submitMessage _ messages _ _ => messages
  | .regenerateMessage _ messages _ => messages

/-- The response `chat_endpoint` chooses once the body has validated
(`main.py` lines 188-203): either the synthetic `text_response` stream with the
given diagnostic text (the agent is never invoked), or the agent-driven
`chat_stream` with the given prompt string. -/
inductive EndpointOutcome where
  | fallbackStream (text : String)
  | agentStream (prompt : String)

/-- The prompt-collection loop of `chat_endpoint` (`main.py` lines 193-198):
walks the parts in order collecting `TextUIPart.text`, and aborts at the first
part that is not a `TextUIPart` (the early `return`). -/
def promptParts : List UIMessagePart → Option (List String)
  | [] => some []
  | .TextUIPart text _ _ :: rest => (promptParts rest).map (text :: ·)
  | _ :: _ => none

/-- `chat_endpoint` after successful validation (`main.py` lines 188-203):
empty `messages` and a non-text part in the last message fall back to the
diagnostic stream; otherwise the agent runs on the newline-joined texts of the
parts of the last message. -/
def routeRequest (data : RequestData) : EndpointOutcome :=
  match data.messages.getLast? with
  | none => .fallbackStream "Error: no messages provided"
  | some message =>
      match promptParts message.parts with
      | none => .fallbackStream "Error: only text parts are supported yet"
      | some prompt => .agentStream (String.intercalate "\n" prompt)

/-- `isinstance(part, ai.TextUIPart)` (`main.py` line 195). -/
def UIMessagePart.isText : UIMessagePart → Bool
  | .TextUIPart _ _ _ => true
  | _ => false

/-- The `text` field extracted from a `TextUIPart`. -/
def partText : UIMessagePart → Option String
  | .TextUIPart text _ _ => some text
  | _ => none

/-- The id a chunk introduces, when it is one of the three start-style kinds
named by the start-before-use invariant. -/
def chunkStarts : UIMessageChunk → Option String
  | .TextStartChunk id _ => some id
  | .ReasoningStartChunk id _ => some id
  | .ToolInputStartChunk toolCallId _ _ _ => some toolCallId
  | _ => none

/-- The id a chunk references, when it is one of the delta / end / available
kinds named by the start-before-use invariant. -/
def chunkUses : UIMessageChunk → Option String
  | .TextDeltaChunk _ id _ => some id
  | .ReasoningDeltaChunk id _ _ => some id
  | .ToolInputDeltaChunk toolCallId _ => some toolCallId
  | .TextEndChunk id _ => some id
  | .ReasoningEndChunk id _ => some id
  | .ToolOutputAvailableChunk toolCallId _ _ _ _ => some toolCallId
  | _ => none

/-- Start-before-use checker: walks the chunk list carrying the set of ids
introduced so far; every referencing chunk must find its id already
introduced. -/
def startBeforeUseAux (started : List String) : List UIMessageChunk → Bool
  | [] => true
  | c :: rest =>
      (match chunkUses c with
        | none => true
        | some i => started.contains i) &&
      startBeforeUseAux (started ++ (chunkStarts c).toList) rest

/-- The start-before-use invariant of a chunk sequence. -/
def startBeforeUse (chunks : List UIMessageChunk) : Bool :=
  startBeforeUseAux [] chunks

/-- All ids introduced by start-style chunks of a sequence, in order. -/
def startsOf (chunks : List UIMessageChunk) : List String :=
  chunks.flatMap (fun c => (chunkStarts c).toList)

/-- The ids that the chunks emitted for an agent event reference without introducing them
in the same emission. -/
def eventUses (messageId : String) : AgentStreamEvent → List String
  | .partStart (.builtinToolReturn _ toolCallId _) => [toolCallId]
  | .partDelta (.textDelta _) => [messageId]
  | .partDelta (.thinkingDelta (some s)) => if s = "" then [] else [messageId]
  | .partDelta (.toolCallDelta (some _) toolCallId) => [toolCallId.getD ""]
  | .functionToolResult (.toolReturn _ toolCallId _) => [toolCallId]
  | .functionToolResult (.retryPrompt _ toolCallId _) => [toolCallId]
  | .builtinToolResult toolCallId _ => [toolCallId]
  | _ => []

/-- The ids that the chunks emitted for an agent event introduce via start-style chunks. -/
def eventStarts (messageId : String) : AgentStreamEvent → List String
  | .partStart (.text _) => [messageId]
  | .partStart (.thinking _) => [messageId]
  | .partStart (.toolCall _ toolCallId _) => [toolCallId]
  | .partStart (.builtinToolCall _ toolCallId _) => [toolCallId]
  | .finalResult toolName toolCallId =>
      if optTruthy toolCallId && optTruthy toolName then [toolCallId.getD ""] else []
  | .builtinToolCall _ toolCallId _ => [toolCallId]
  | _ => []

/-- Well-formedness of an agent event sequence: every event that makes the
translator reference an id is preceded by an event that makes it introduce
that id (this is the discipline the upstream agent framework follows; the
translator itself does not enforce it). -/
def wellFormedAux (messageId : String) (started : List String) :
    List AgentStreamEvent → Bool
  | [] => true
  | e :: rest =>
      (eventUses messageId e).all started.contains &&
      wellFormedAux messageId (started ++ eventStarts messageId e) rest

/-- Well-formedness of an agent event sequence, starting from no ids. -/
def wellFormedEvents (messageId : String) (events : List AgentStreamEvent) : Bool :=
  wellFormedAux messageId [] events

/-- Recognizer for the `start` lifecycle chunk kind. -/
def isStartKind : UIMessageChunk → Bool
  | .StartChunk _ _ => true
  | _ => false

/-- Recognizer for the `finish` lifecycle chunk kind. -/
def isFinishKind : UIMessageChunk → Bool
  | .FinishChunk _ => true
  | _ => false

/-! ### Wire format: JSON encoding of chunks (`sse_messages`, `main.py` lines
166-170) and its spec-modelled decoding -/

/-- Read a JSON string value. -/
def J.asStr : J → Option String
  | .str s => some s
  | _ => none

/-- Read a JSON boolean value. -/
def J.asBool : J → Option Bool
  | .bool b => some b
  | _ => none

/-- Read a JSON array value. -/
def J.asArr : J → Option (List J)
  | .arr elems => some elems
  | _ => none

/-- Read a JSON object value. -/
def J.asObj : J → Option (List (String × J))
  | .obj fields => some fields
  | _ => none

/-- Encode a `ProviderMetadata` dict as a JSON object of objects. -/
def encodePM (m : PMeta) : J :=
  .obj (m.map (fun kv => (kv.1, .obj kv.2)))

/-- Decode the fields of a `ProviderMetadata` object. -/
def decodePMFields : List (String × J) → Option PMeta
  | [] => some []
  | (k, .obj m) :: rest => (decodePMFields rest).map ((k, m) :: ·)
  | _ => none

/-- Decode a JSON value as `ProviderMetadata`. -/
def decodePM : J → Option PMeta
  | .obj fields => decodePMFields fields
  | _ => none

/-- One optional wire field: present only when the Python value is not `None`
(`model_dump_json(exclude_none=True)`). -/
def optField {α : Type} (key : String) (f : α → J) : Option α → List (String × J)
  | none => []
  | some v => [(key, f v)]

/-- `model_dump_json(exclude_none=True, by_alias=True)` of one chunk
(`main.py` line 168): the `type` discriminator plus the non-`None` fields in
declaration order, keys in the `to_camel` alias convention. -/
def encodeChunk : UIMessageChunk → List (String × J)
  | .TextStartChunk i pm =>
      ("type", .str "text-start") :: ("id", .str i) ::
        optField "providerMetadata" encodePM pm
  | .TextDeltaChunk delta i pm =>
      ("type", .str "text-delta") :: ("delta", .str delta) :: ("id", .str i) ::
        optField "providerMetadata" encodePM pm
  | .TextEndChunk i pm =>
      ("type", .str "text-end") :: ("id", .str i) ::
        optField "providerMetadata" encodePM pm
  | .ReasoningStartChunk i pm =>
      ("type", .str "reasoning-start") :: ("id", .str i) ::
        optField "providerMetadata" encodePM pm
  | .ReasoningDeltaChunk i delta pm =>
      ("type", .str "reasoning-delta") :: ("id", .str i) :: ("delta", .str delta) ::
        optField "providerMetadata" encodePM pm
  | .ReasoningEndChunk i pm =>
      ("type", .str "reasoning-end") :: ("id", .str i) ::
        optField "providerMetadata" encodePM pm
  | .ErrorChunk errorText =>
      [("type", .str "error"), ("errorText", .str errorText)]
  | .ToolInputAvailableChunk toolCallId toolName input pe pm dyn =>
      ("type", .str "tool-input-available") :: ("toolCallId", .str toolCallId) ::
        ("toolName", .str toolName) ::
        (optField "input" id input ++ optField "providerExecuted" J.bool pe ++
          optField "providerMetadata" encodePM pm ++ optField "dynamic" J.bool dyn)
  | .ToolInputErrorChunk toolCallId toolName input pe pm dyn errorText =>
      ("type", .str "tool-input-error") :: ("toolCallId", .str toolCallId) ::
        ("toolName", .str toolName) ::
        (optField "input" id input ++ optField "providerExecuted" J.bool pe ++
          optField "providerMetadata" encodePM pm ++ optField "dynamic" J.bool dyn ++
          [("errorText", .str errorText)])
  | .ToolOutputAvailableChunk toolCallId output pe dyn prelim =>
      ("type", .str "tool-output-available") :: ("toolCallId", .str toolCallId) ::
        (optField "output" id output ++ optField "providerExecuted" J.bool pe ++
          optField "dynamic" J.bool dyn ++ optField "preliminary" J.bool prelim)
  | .ToolOutputErrorChunk toolCallId errorText pe dyn =>
      ("type", .str "tool-output-error") :: ("toolCallId", .str toolCallId) ::
        ("errorText", .str errorText) ::
        (optField "providerExecuted" J.bool pe ++ optField "dynamic" J.bool dyn)
  | .ToolInputStartChunk toolCallId toolName pe dyn =>
      ("type", .str "tool-input-start") :: ("toolCallId", .str toolCallId) ::
        ("toolName", .str toolName) ::
        (optField "providerExecuted" J.bool pe ++ optField "dynamic" J.bool dyn)
  | .ToolInputDeltaChunk toolCallId inputTextDelta =>
      [("type", .str "tool-input-delta"), ("toolCallId", .str toolCallId),
       ("inputTextDelta", .str inputTextDelta)]
  | .SourceUrlChunk sourceId url title pm =>
      ("type", .str "source-url") :: ("sourceId", .str sourceId) :: ("url", .str url) ::
        (optField "title" J.str title ++ optField "providerMetadata" encodePM pm)
  | .SourceDocumentChunk sourceId mediaType title filename pm =>
      ("type", .str "source-document") :: ("sourceId", .str sourceId) ::
        ("mediaType", .str mediaType) :: ("title", .str title) ::
        (optField "filename" J.str filename ++ optField "providerMetadata" encodePM pm)
  | .FileChunk url mediaType =>
      [("type", .str "file"), ("url", .str url), ("mediaType", .str mediaType)]
  | .DataUIMessageChunk ty d =>
      ("type", .str ty) :: optField "data" id d
  | .StartStepChunk => [("type", .str "start-step")]
  | .FinishStepChunk => [("type", .str "finish-step")]
  | .StartChunk messageId messageMetadata =>
      ("type", .str "start") ::
        (optField "messageId" J.str messageId ++ optField "messageMetadata" id messageMetadata)
  | .FinishChunk messageMetadata =>
      ("type", .str "finish") :: optField "messageMetadata" id messageMetadata
  | .AbortChunk => [("type", .str "abort")]
  | .MessageMetadataChunk messageMetadata =>
      ("type", .str "message-metadata") :: optField "messageMetadata" id messageMetadata

/-- The forbid-extra rule of `CamelBaseModel`: every present key must be declared. -/
def keysSub (fs : List (String × J)) (allowed : List String) : Bool :=
  fs.all (fun kv => allowed.contains kv.1)

/-- A required string field. -/
def reqStr (fs : List (String × J)) (key : String) : Option String :=
  (fs.lookup key).bind J.asStr

/-- A required boolean field. -/
def reqBool (fs : List (String × J)) (key : String) : Option Bool :=
  (fs.lookup key).bind J.asBool

/-- An optional (`str | None`) field: absent decodes as `None`. -/
def optStrField (fs : List (String × J)) (key : String) : Option (Option String) :=
  match fs.lookup key with
  | none => some none
  | some v => (J.asStr v).map some

/-- An optional (`bool | None`) field: absent decodes as `None`. -/
def optBoolField (fs : List (String × J)) (key : String) : Option (Option Bool) :=
  match fs.lookup key with
  | none => some none
  | some v => (J.asBool v).map some

/-- An optional `ProviderMetadata` field: absent decodes as `None`. -/
def optPMField (fs : List (String × J)) (key : String) : Option (Option PMeta) :=
  match fs.lookup key with
  | none => some none
  | some v => (decodePM v).map some

/-- An `Any`-typed field (pydantic gives such fields an implicit `None`
default): absent decodes as `None`, a present value is taken as-is. -/
def anyField (fs : List (String × J)) (key : String) : Option J :=
  fs.lookup key

def decodeTextStart (fs : List (String × J)) : Option UIMessageChunk :=
  if keysSub fs ["type", "id", "providerMetadata"] then do
    let i ← reqStr fs "id"
    let pm ← optPMField fs "providerMetadata"
    some (.TextStartChunk i pm)
  else none

def decodeTextDelta (fs : List (String × J)) : Option UIMessageChunk :=
  if keysSub fs ["type", "delta", "id", "providerMetadata"] then do
    let delta ← reqStr fs "delta"
    let i ← reqStr fs "id"
    let pm ← optPMField fs "providerMetadata"
    some (.TextDeltaChunk delta i pm)
  else none

def decodeTextEnd (fs : List (String × J)) : Option UIMessageChunk :=
  if keysSub fs ["type", "id", "providerMetadata"] then do
    let i ← reqStr fs "id"
    let pm ← optPMField fs "providerMetadata"
    some (.TextEndChunk i pm)
  else none

def decodeReasoningStart (fs : List (String × J)) : Option UIMessageChunk :=
  if keysSub fs ["type", "id", "providerMetadata"] then do
    let i ← reqStr fs "id"
    let pm ← optPMField fs "providerMetadata"
    some (.ReasoningStartChunk i pm)
  else none

def decodeReasoningDelta (fs : List (String × J)) : Option UIMessageChunk :=
  if keysSub fs ["type", "id", "delta", "providerMetadata"] then do
    let i ← reqStr fs "id"
    let delta ← reqStr fs "delta"
    let pm ← optPMField fs "providerMetadata"
    some (.ReasoningDeltaChunk i delta pm)
  else none

def decodeReasoningEnd (fs : List (String × J)) : Option UIMessageChunk :=
  if keysSub fs ["type", "id", "providerMetadata"] then do
    let i ← reqStr fs "id"
    let pm ← optPMField fs "providerMetadata"
    some (.ReasoningEndChunk i pm)
  else none

def decodeError (fs : List (String × J)) : Option UIMessageChunk :=
  if keysSub fs ["type", "errorText"] then do
    let errorText ← reqStr fs "errorText"
    some (.ErrorChunk errorText)
  else none

def decodeToolInputAvailable (fs : List (String × J)) : Option UIMessageChunk :=
  if keysSub fs ["type", "toolCallId", "toolName", "input", "providerExecuted",
      "providerMetadata", "dynamic"] then do
    let toolCallId ← reqStr fs "toolCallId"
    let toolName ← reqStr fs "toolName"
    let pe ← optBoolField fs "providerExecuted"
    let pm ← optPMField fs "providerMetadata"
    let dyn ← optBoolField fs "dynamic"
    some (.ToolInputAvailableChunk toolCallId toolName (anyField fs "input") pe pm dyn)
  else none

def decodeToolInputError (fs : List (String × J)) : Option UIMessageChunk :=
  if keysSub fs ["type", "toolCallId", "toolName", "input", "providerExecuted",
      "providerMetadata", "dynamic", "errorText"] then do
    let toolCallId ← reqStr fs "toolCallId"
    let toolName ← reqStr fs "toolName"
    let pe ← optBoolField fs "providerExecuted"
    let pm ← optPMField fs "providerMetadata"
    let dyn ← optBoolField fs "dynamic"
    let errorText ← reqStr fs "errorText"
    some (.ToolInputErrorChunk toolCallId toolName (anyField fs "input") pe pm dyn errorText)
  else none

def decodeToolOutputAvailable (fs : List (String × J)) : Option UIMessageChunk :=
  if keysSub fs ["type", "toolCallId", "output", "providerExecuted", "dynamic",
      "preliminary"] then do
    let toolCallId ← reqStr fs "toolCallId"
    let pe ← optBoolField fs "providerExecuted"
    let dyn ← optBoolField fs "dynamic"
    let prelim ← optBoolField fs "preliminary"
    some (.ToolOutputAvailableChunk toolCallId (anyField fs "output") pe dyn prelim)
  else none

def decodeToolOutputError (fs : List (String × J)) : Option UIMessageChunk :=
  if keysSub fs ["type", "toolCallId", "errorText", "providerExecuted", "dynamic"] then do
    let toolCallId ← reqStr fs "toolCallId"
    let errorText ← reqStr fs "errorText"
    let pe ← optBoolField fs "providerExecuted"
    let dyn ← optBoolField fs "dynamic"
    some (.ToolOutputErrorChunk toolCallId errorText pe dyn)
  else none

def decodeToolInputStart (fs : List (String × J)) : Option UIMessageChunk :=
  if keysSub fs ["type", "toolCallId", "toolName", "providerExecuted", "dynamic"] then do
    let toolCallId ← reqStr fs "toolCallId"
    let toolName ← reqStr fs "toolName"
    let pe ← optBoolField fs "providerExecuted"
    let dyn ← optBoolField fs "dynamic"
    some (.ToolInputStartChunk toolCallId toolName pe dyn)
  else none

def decodeToolInputDelta (fs : List (String × J)) : Option UIMessageChunk :=
  if keysSub fs ["type", "toolCallId", "inputTextDelta"] then do
    let toolCallId ← reqStr fs "toolCallId"
    let inputTextDelta ← reqStr fs "inputTextDelta"
    some (.ToolInputDeltaChunk toolCallId inputTextDelta)
  else none

def decodeSourceUrl (fs : List (String × J)) : Option UIMessageChunk :=
  if keysSub fs ["type", "sourceId", "url", "title", "providerMetadata"] then do
    let sourceId ← reqStr fs "sourceId"
    let url ← reqStr fs "url"
    let title ← optStrField fs "title"
    let pm ← optPMField fs "providerMetadata"
    some (.SourceUrlChunk sourceId url title pm)
  else none

def decodeSourceDocument (fs : List (String × J)) : Option UIMessageChunk :=
  if keysSub fs ["type", "sourceId", "mediaType", "title", "filename",
      "providerMetadata"] then do
    let sourceId ← reqStr fs "sourceId"
    let mediaType ← reqStr fs "mediaType"
    let title ← reqStr fs "title"
    let filename ← optStrField fs "filename"
    let pm ← optPMField fs "providerMetadata"
    some (.SourceDocumentChunk sourceId mediaType title filename pm)
  else none

def decodeFile (fs : List (String × J)) : Option UIMessageChunk :=
  if keysSub fs ["type", "url", "mediaType"] then do
    let url ← reqStr fs "url"
    let mediaType ← reqStr fs "mediaType"
    some (.FileChunk url mediaType)
  else none

def decodeData (t : String) (fs : List (String × J)) : Option UIMessageChunk :=
  if keysSub fs ["type", "data"] then
    some (.DataUIMessageChunk t (anyField fs "data"))
  else none

def decodeStartStep (fs : List (String × J)) : Option UIMessageChunk :=
  if keysSub fs ["type"] then some .StartStepChunk else none

def decodeFinishStep (fs : List (String × J)) : Option UIMessageChunk :=
  if keysSub fs ["type"] then some .FinishStepChunk else none

def decodeStart (fs : List (String × J)) : Option UIMessageChunk :=
  if keysSub fs ["type", "messageId", "messageMetadata"] then do
    let messageId ← optStrField fs "messageId"
    some (.StartChunk messageId (anyField fs "messageMetadata"))
  else none

def decodeFinish (fs : List (String × J)) : Option UIMessageChunk :=
  if keysSub fs ["type", "messageMetadata"] then
    some (.FinishChunk (anyField fs "messageMetadata"))
  else none

def decodeAbort (fs : List (String × J)) : Option UIMessageChunk :=
  if keysSub fs ["type"] then some .AbortChunk else none

def decodeMessageMetadata (fs : List (String × J)) : Option UIMessageChunk :=
  if keysSub fs ["type", "messageMetadata"] then
    some (.MessageMetadataChunk (anyField fs "messageMetadata"))
  else none

/-- Modelled from the spec: the decoding direction of the chunk wire format.
The repository only implements the encoder (`sse_messages` serializes chunks;
no chunk decoder exists in the source), while the spec fixes the closed set of
23 chunk kinds discriminated by `type` (§3), the camelCase non-null wire shape
(§6) and that omitted optional fields decode as absent, not null (§8).
Dispatch is on the `type` discriminator; any non-reserved type string decodes
as a data chunk (`DataUIMessageChunk`, whose type is documented as
`data-{NAME}`). -/
def decodeChunk (fs : List (String × J)) : Option UIMessageChunk :=
  match fs.lookup "type" with
  | some (.str t) =>
      if t = "text-start" then decodeTextStart fs
      else if t = "text-delta" then decodeTextDelta fs
      else if t = "text-end" then decodeTextEnd fs
      else if t = "reasoning-start" then decodeReasoningStart fs
      else if t = "reasoning-delta" then decodeReasoningDelta fs
      else if t = "reasoning-end" then decodeReasoningEnd fs
      else if t = "error" then decodeError fs
      else if t = "tool-input-available" then decodeToolInputAvailable fs
      else if t = "tool-input-error" then decodeToolInputError fs
      else if t = "tool-output-available" then decodeToolOutputAvailable fs
      else if t = "tool-output-error" then decodeToolOutputError fs
      else if t = "tool-input-start" then decodeToolInputStart fs
      else if t = "tool-input-delta" then decodeToolInputDelta fs
      else if t = "source-url" then decodeSourceUrl fs
      else if t = "source-document" then decodeSourceDocument fs
      else if t = "file" then decodeFile fs
      else if t = "start-step" then decodeStartStep fs
      else if t = "finish-step" then decodeFinishStep fs
      else if t = "start" then decodeStart fs
      else if t = "finish" then decodeFinish fs
      else if t = "abort" then decodeAbort fs
      else if t = "message-metadata" then decodeMessageMetadata fs
      else decodeData t fs
  | _ => none

/-- The 22 fixed `type` discriminators of the chunk union; only
`DataUIMessageChunk` carries a free-form type string. -/
def reservedChunkTypes : List String :=
  ["text-start", "text-delta", "text-end", "reasoning-start", "reasoning-delta",
   "reasoning-end", "error", "tool-input-available", "tool-input-error",
   "tool-output-available", "tool-output-error", "tool-input-start",
   "tool-input-delta", "source-url", "source-document", "file", "start-step",
   "finish-step", "start", "finish", "abort", "message-metadata"]

/-- A chunk whose wire type is unambiguous: every chunk except a data chunk
whose free-form `type` collides with one of the 22 reserved discriminators. -/
def permittedChunk : UIMessageChunk → Bool
  | .DataUIMessageChunk ty _ => !(reservedChunkTypes.contains ty)
  | _ => true

/-! ### Request validation (`request_data_schema.validate_json`,
`main.py` lines 37-39 and 181-186) -/

/-- The `state` field of text / reasoning parts:
a `Literal` of `streaming` / `done`, or `None`. -/
def optStateField (fs : List (String × J)) (key : String) : Option (Option String) :=
  match fs.lookup key with
  | none => some none
  | some v =>
      (J.asStr v).bind (fun s =>
        if s = "streaming" then some (some s)
        else if s = "done" then some (some s)
        else none)

/-- Modelled after pydantic validation of one `UIMessagePart`
(`vercel_ai_types.py` lines 34-246): the member models are distinguished by
their `type` literal, the two tool-part families by their dynamic `type`
string plus the `state` literal, and `DataUIPart` by any remaining type
string; every member is a `CamelBaseModel`, so unknown keys are rejected
(forbid-extra), while `Any`-typed fields accept anything and default to
`None` when absent. -/
def validatePart (v : J) : Option UIMessagePart :=
  match v with
  | .obj fs =>
      match fs.lookup "type" with
      | some (.str t) =>
          if t = "text" then
            if keysSub fs ["type", "text", "state", "providerMetadata"] then do
              let text ← reqStr fs "text"
              let st ← optStateField fs "state"
              let pm ← optPMField fs "providerMetadata"
              some (.TextUIPart text st pm)
            else none
          else if t = "reasoning" then
            if keysSub fs ["type", "text", "state", "providerMetadata"] then do
              let text ← reqStr fs "text"
              let st ← optStateField fs "state"
              let pm ← optPMField fs "providerMetadata"
              some (.ReasoningUIPart text st pm)
            else none
          else if t = "source-url" then
            if keysSub fs ["type", "sourceId", "url", "title", "providerMetadata"] then do
              let sourceId ← reqStr fs "sourceId"
              let url ← reqStr fs "url"
              let title ← optStrField fs "title"
              let pm ← optPMField fs "providerMetadata"
              some (.SourceUrlUIPart sourceId url title pm)
            else none
          else if t = "source-document" then
            if keysSub fs ["type", "sourceId", "mediaType", "title", "filename",
                "providerMetadata"] then do
              let sourceId ← reqStr fs "sourceId"
              let mediaType ← reqStr fs "mediaType"
              let title ← reqStr fs "title"
              let filename ← optStrField fs "filename"
              let pm ← optPMField fs "providerMetadata"
              some (.SourceDocumentUIPart sourceId mediaType title filename pm)
            else none
          else if t = "file" then
            if keysSub fs ["type", "mediaType", "filename", "url", "providerMetadata"] then do
              let mediaType ← reqStr fs "mediaType"
              let filename ← optStrField fs "filename"
              let url ← reqStr fs "url"
              let pm ← optPMField fs "providerMetadata"
              some (.FileUIPart mediaType filename url pm)
            else none
          else if t = "step-start" then
            if keysSub fs ["type"] then some .StepStartUIPart else none
          else if t = "dynamic-tool" then do
            let toolName ← reqStr fs "toolName"
            let toolCallId ← reqStr fs "toolCallId"
            match fs.lookup "state" with
            | some (.str "input-streaming") =>
                if keysSub fs ["type", "toolName", "toolCallId", "state", "input"] then
                  some (.DynamicToolInputStreamingPart toolName toolCallId
                    (anyField fs "input"))
                else none
            | some (.str "input-available") =>
                if keysSub fs ["type", "toolName", "toolCallId", "state", "input",
                    "callProviderMetadata"] then do
                  let cm ← optPMField fs "callProviderMetadata"
                  some (.DynamicToolInputAvailablePart toolName toolCallId
                    (anyField fs "input") cm)
                else none
            | some (.str "output-available") =>
                if keysSub fs ["type", "toolName", "toolCallId", "state", "input",
                    "output", "callProviderMetadata", "preliminary"] then do
                  let cm ← optPMField fs "callProviderMetadata"
                  let prelim ← optBoolField fs "preliminary"
                  some (.DynamicToolOutputAvailablePart toolName toolCallId
                    (anyField fs "input") (anyField fs "output") cm prelim)
                else none
            | some (.str "output-error") =>
                if keysSub fs ["type", "toolName", "toolCallId", "state", "input",
                    "errorText", "callProviderMetadata"] then do
                  let errorText ← reqStr fs "errorText"
                  let cm ← optPMField fs "callProviderMetadata"
                  some (.DynamicToolOutputErrorPart toolName toolCallId
                    (anyField fs "input") errorText cm)
                else none
            | _ => none
          else
            match fs.lookup "state" with
            | some (.str "input-streaming") =>
                if keysSub fs ["type", "toolCallId", "state", "input",
                    "providerExecuted"] then do
                  let toolCallId ← reqStr fs "toolCallId"
                  let pe ← optBoolField fs "providerExecuted"
                  some (.ToolInputStreamingPart t toolCallId (anyField fs "input") pe)
                else none
            | some (.str "input-available") =>
                if keysSub fs ["type", "toolCallId", "state", "input",
                    "providerExecuted", "callProviderMetadata"] then do
                  let toolCallId ← reqStr fs "toolCallId"
                  let pe ← optBoolField fs "providerExecuted"
                  let cm ← optPMField fs "callProviderMetadata"
                  some (.ToolInputAvailablePart t toolCallId (anyField fs "input") pe cm)
                else none
            | some (.str "output-available") =>
                if keysSub fs ["type", "toolCallId", "state", "input", "output",
                    "providerExecuted", "callProviderMetadata", "preliminary"] then do
                  let toolCallId ← reqStr fs "toolCallId"
                  let pe ← optBoolField fs "providerExecuted"
                  let cm ← optPMField fs "callProviderMetadata"
                  let prelim ← optBoolField fs "preliminary"
                  some (.ToolOutputAvailablePart t toolCallId (anyField fs "input")
                    (anyField fs "output") pe cm prelim)
                else none
            | some (.str "output-error") =>
                if keysSub fs ["type", "toolCallId", "state", "input", "rawInput",
                    "errorText", "providerExecuted", "callProviderMetadata"] then do
                  let toolCallId ← reqStr fs "toolCallId"
                  let errorText ← reqStr fs "errorText"
                  let pe ← optBoolField fs "providerExecuted"
                  let cm ← optPMField fs "callProviderMetadata"
                  some (.ToolOutputErrorPart t toolCallId (anyField fs "input")
                    (anyField fs "rawInput") errorText pe cm)
                else none
            | _ =>
                if keysSub fs ["type", "id", "data"] then do
                  let i ← optStrField fs "id"
                  some (.DataUIPart t i (anyField fs "data"))
                else none
      | _ => none
  | _ => none

/-- Validate the `parts` array in order. -/
def validateParts : List J → Option (List UIMessagePart)
  | [] => some []
  | v :: rest => do
      let p ← validatePart v
      let ps ← validateParts rest
      some (p :: ps)

/-- pydantic validation of one `UIMessage` (`vercel_ai_types.py` lines
249-269): a `CamelBaseModel`, so unknown keys are rejected. -/
def validateUIMessage (v : J) : Option UIMessage :=
  match v with
  | .obj fs =>
      if keysSub fs ["id", "role", "metadata", "parts"] then do
        let i ← reqStr fs "id"
        let role ← (reqStr fs "role").bind (fun r =>
          if r = "system" then some Role.system
          else if r = "user" then some Role.user
          else if r = "assistant" then some Role.assistant
          else none)
        let partsJ ← (fs.lookup "parts").bind J.asArr
        let parts ← validateParts partsJ
        some ⟨i, role, anyField fs "metadata", parts⟩
      else none
  | _ => none

/-- Validate the `messages` array in order. -/
def validateMessages : List J → Option (List UIMessage)
  | [] => some []
  | v :: rest => do
      let m ← validateUIMessage v
      let ms ← validateMessages rest
      some (m :: ms)

/-- `SubmitMessage` (`main.py` lines 21-27): a plain pydantic `BaseModel` with
`alias_generator=to_camel`, so the wire keys are the camelCase aliases and —
by the pydantic default ignore-extra policy — keys that are no field alias are
ignored, not rejected.  All five fields are required.  (The `trigger` literal
has already been matched by the discriminator dispatch.) -/
def validateSubmitMessage (fs : List (String × J)) : Option RequestData := do
  let i ← reqStr fs "id"
  let msgsJ ← (fs.lookup "messages").bind J.asArr
  let messages ← validateMessages msgsJ
  let model ← reqStr fs "model"
  let webSearch ← reqBool fs "webSearch"
  some (.submitMessage i messages model webSearch)

/-- `RegenerateMessage` (`main.py` lines 30-34): like `SubmitMessage`, a plain
`BaseModel` — unknown keys are ignored. -/
def validateRegenerateMessage (fs : List (String × J)) : Option RequestData := do
  let i ← reqStr fs "id"
  let msgsJ ← (fs.lookup "messages").bind J.asArr
  let messages ← validateMessages msgsJ
  let messageId ← reqStr fs "messageId"
  some (.regenerateMessage i messages messageId)

/-- `request_data_schema.validate_json` (`main.py` lines 37-39): the
discriminated union `SubmitMessage | RegenerateMessage` on the `trigger`
field. -/
def validateRequest (v : J) : Option RequestData :=
  match v with
  | .obj fs =>
      match fs.lookup "trigger" with
      | some (.str t) =>
          if t = "submit-message" then validateSubmitMessage fs
          else if t = "regenerate-message" then validateRegenerateMessage fs
          else none
      | _ => none
  | _ => none

/-! ### Helper lemmas -/

theorem optTruthy_iff (o : Option String) :
    optTruthy o = true ↔ ∃ s, o = some s ∧ s ≠ "" := by
  cases o <;> simp [optTruthy]

theorem argsDeltaChunks_mem (toolCallId : String) (args : Option ToolArgs)
    (c : UIMessageChunk) (hc : c ∈ argsDeltaChunks toolCallId args) :
    ∃ s, c = .ToolInputDeltaChunk toolCallId s := by
  cases args with
  | none => cases hc
  | some a =>
      cases a <;> (simp [argsDeltaChunks] at hc; exact ⟨_, hc⟩)

theorem stepFinal_non_final (acc : Option String) (e : AgentStreamEvent)
    (he : ∀ tn tid, e ≠ .finalResult tn tid) : stepFinal acc e = acc := by
  cases e with
  | finalResult tn tid => exact absurd rfl (he tn tid)
  | _ => rfl

theorem stepFinal_preserves (acc : Option String) (e : AgentStreamEvent)
    (h : ∃ f, acc = some f ∧ f ≠ "") :
    ∃ f, stepFinal acc e = some f ∧ f ≠ "" := by
  cases e with
  | finalResult tn tid =>
      by_cases hc : (optTruthy tid && optTruthy tn) = true
      · have hc2 := hc
        simp only [Bool.and_eq_true] at hc2
        obtain ⟨t, htid, ht⟩ := (optTruthy_iff tid).mp hc2.1
        refine ⟨t, ?_, ht⟩
        show (if optTruthy tid && optTruthy tn then tid else acc) = some t
        rw [if_pos hc, htid]
      · obtain ⟨f, hacc, hf⟩ := h
        refine ⟨f, ?_, hf⟩
        show (if optTruthy tid && optTruthy tn then tid else acc) = some f
        rw [if_neg hc, hacc]
  | partStart p => simpa [stepFinal] using h
  | partDelta d => simpa [stepFinal] using h
  | functionToolCall => simpa [stepFinal] using h
  | functionToolResult r => simpa [stepFinal] using h
  | builtinToolCall tn tid args => simpa [stepFinal] using h
  | builtinToolResult tid content => simpa [stepFinal] using h

theorem foldl_stepFinal_truthy (events : List AgentStreamEvent) :
    ∀ acc : Option String,
      ((∃ tn tid, AgentStreamEvent.finalResult tn tid ∈ events ∧
          optTruthy tid = true ∧ optTruthy tn = true) ∨
        (∃ f, acc = some f ∧ f ≠ "")) →
      ∃ f, events.foldl stepFinal acc = some f ∧ f ≠ "" := by
  induction events with
  | nil =>
      intro acc h
      rcases h with ⟨tn, tid, hmem, _, _⟩ | hf
      · cases hmem
      · simpa using hf
  | cons e rest ih =>
      intro acc h
      rw [List.foldl_cons]
      apply ih
      rcases h with ⟨tn, tid, hmem, htid, htn⟩ | hf
      · rcases List.mem_cons.mp hmem with heq | hmem2
        · right
          obtain ⟨t, htideq, ht⟩ := (optTruthy_iff tid).mp htid
          refine ⟨t, ?_, ht⟩
          rw [← heq]
          show (if optTruthy tid && optTruthy tn then tid else acc) = some t
          rw [if_pos (by rw [htid, htn]; rfl), htideq]
        · exact Or.inl ⟨tn, tid, hmem2, htid, htn⟩
      · exact Or.inr (stepFinal_preserves acc e hf)

theorem foldl_stepFinal_none (events : List AgentStreamEvent)
    (h : ∀ tn tid, AgentStreamEvent.finalResult tn tid ∈ events →
      (optTruthy tid && optTruthy tn) = false) :
    events.foldl stepFinal none = none := by
  induction events with
  | nil => rfl
  | cons e rest ih =>
      rw [List.foldl_cons]
      have hstep : stepFinal none e = none := by
        cases e with
        | finalResult tn tid =>
            simp [stepFinal, h tn tid (List.mem_cons_self _ _)]
        | partStart p => rfl
        | partDelta d => rfl
        | functionToolCall => rfl
        | functionToolResult r => rfl
        | builtinToolCall tn tid args => rfl
        | builtinToolResult tid content => rfl
      rw [hstep]
      exact ih (fun tn tid hmem => h tn tid (List.mem_cons_of_mem _ hmem))

theorem promptParts_eq_none (ps : List UIMessagePart) (p : UIMessagePart)
    (hp : p ∈ ps) (hnt : p.isText = false) : promptParts ps = none := by
  induction ps with
  | nil => cases hp
  | cons q rest ih =>
      cases q with
      | TextUIPart t st pm =>
          rcases List.mem_cons.mp hp with heq | hmem
          · rw [heq] at hnt; cases hnt
          · rw [promptParts, ih hmem]
            rfl
      | ReasoningUIPart t st pm => rfl
      | ToolInputStreamingPart ty tid i pe => rfl
      | ToolInputAvailablePart ty tid i pe cm => rfl
      | ToolOutputAvailablePart ty tid i o pe cm pr => rfl
      | ToolOutputErrorPart ty tid i ri et pe cm => rfl
      | DynamicToolInputStreamingPart tn tid i => rfl
      | DynamicToolInputAvailablePart tn tid i cm => rfl
      | DynamicToolOutputAvailablePart tn tid i o cm pr => rfl
      | DynamicToolOutputErrorPart tn tid i et cm => rfl
      | SourceUrlUIPart sid u ti pm => rfl
      | SourceDocumentUIPart sid mt ti f pm => rfl
      | FileUIPart mt f u pm => rfl
      | StepStartUIPart => rfl
      | DataUIPart ty i d => rfl

theorem promptParts_all_text (ps : List UIMessagePart)
    (h : ∀ p ∈ ps, p.isText = true) :
    promptParts ps = some (ps.filterMap partText) := by
  induction ps with
  | nil => rfl
  | cons q rest ih =>
      cases q with
      | TextUIPart t st pm =>
          rw [promptParts, ih (fun p hp => h p (List.mem_cons_of_mem _ hp))]
          rfl
      | ReasoningUIPart t st pm =>
          exact absurd (h _ (List.mem_cons_self _ _)) (by simp [UIMessagePart.isText])
      | ToolInputStreamingPart ty tid i pe =>
          exact absurd (h _ (List.mem_cons_self _ _)) (by simp [UIMessagePart.isText])
      | ToolInputAvailablePart ty tid i pe cm =>
          exact absurd (h _ (List.mem_cons_self _ _)) (by simp [UIMessagePart.isText])
      | ToolOutputAvailablePart ty tid i o pe cm pr =>
          exact absurd (h _ (List.mem_cons_self _ _)) (by simp [UIMessagePart.isText])
      | ToolOutputErrorPart ty tid i ri et pe cm =>
          exact absurd (h _ (List.mem_cons_self _ _)) (by simp [UIMessagePart.isText])
      | DynamicToolInputStreamingPart tn tid i =>
          exact absurd (h _ (List.mem_cons_self _ _)) (by simp [UIMessagePart.isText])
      | DynamicToolInputAvailablePart tn tid i cm =>
          exact absurd (h _ (List.mem_cons_self _ _)) (by simp [UIMessagePart.isText])
      | DynamicToolOutputAvailablePart tn tid i o cm pr =>
          exact absurd (h _ (List.mem_cons_self _ _)) (by simp [UIMessagePart.isText])
      | DynamicToolOutputErrorPart tn tid i et cm =>
          exact absurd (h _ (List.mem_cons_self _ _)) (by simp [UIMessagePart.isText])
      | SourceUrlUIPart sid u ti pm =>
          exact absurd (h _ (List.mem_cons_self _ _)) (by simp [UIMessagePart.isText])
      | SourceDocumentUIPart sid mt ti f pm =>
          exact absurd (h _ (List.mem_cons_self _ _)) (by simp [UIMessagePart.isText])
      | FileUIPart mt f u pm =>
          exact absurd (h _ (List.mem_cons_self _ _)) (by simp [UIMessagePart.isText])
      | StepStartUIPart =>
          exact absurd (h _ (List.mem_cons_self _ _)) (by simp [UIMessagePart.isText])
      | DataUIPart ty i d =>
          exact absurd (h _ (List.mem_cons_self _ _)) (by simp [UIMessagePart.isText])

theorem routeRequest_getLast (d1 d2 : RequestData)
    (h : d1.messages.getLast? = d2.messages.getLast?) :
    routeRequest d1 = routeRequest d2 := by
  rw [routeRequest, routeRequest, h]

theorem stepChunks_not_lifecycle (mid : String) (e : AgentStreamEvent) :
    ∀ c ∈ stepChunks mid e, isStartKind c = false ∧ isFinishKind c = false := by
  intro c hc
  cases e with
  | partStart p =>
      cases p with
      | text content =>
          simp only [stepChunks, chunksOfPartStart, List.mem_cons,
            List.not_mem_nil, or_false] at hc
          rcases hc with rfl | rfl <;> exact ⟨rfl, rfl⟩
      | toolCall tn tid args =>
          simp only [stepChunks, chunksOfPartStart, List.mem_cons] at hc
          rcases hc with rfl | hc
          · exact ⟨rfl, rfl⟩
          · obtain ⟨s, rfl⟩ := argsDeltaChunks_mem tid args c hc
            exact ⟨rfl, rfl⟩
      | builtinToolCall tn tid args =>
          simp only [stepChunks, chunksOfPartStart, List.mem_cons] at hc
          rcases hc with rfl | hc
          · exact ⟨rfl, rfl⟩
          · obtain ⟨s, rfl⟩ := argsDeltaChunks_mem tid args c hc
            exact ⟨rfl, rfl⟩
      | builtinToolReturn tn tid content =>
          simp only [stepChunks, chunksOfPartStart, List.mem_singleton] at hc
          subst hc; exact ⟨rfl, rfl⟩
      | thinking content =>
          simp only [stepChunks, chunksOfPartStart, List.mem_cons,
            List.not_mem_nil, or_false] at hc
          rcases hc with rfl | rfl <;> exact ⟨rfl, rfl⟩
      | other => cases hc
  | partDelta d =>
      cases d with
      | textDelta cd =>
          simp only [stepChunks, chunksOfPartDelta, List.mem_singleton] at hc
          subst hc; exact ⟨rfl, rfl⟩
      | thinkingDelta cd =>
          cases cd with
          | none => cases hc
          | some s =>
              simp only [stepChunks, chunksOfPartDelta] at hc
              split at hc
              · cases hc
              · simp only [List.mem_singleton] at hc
                subst hc; exact ⟨rfl, rfl⟩
      | toolCallDelta args tid =>
          simp only [stepChunks, chunksOfPartDelta] at hc
          obtain ⟨s, rfl⟩ := argsDeltaChunks_mem (tid.getD "") args c hc
          exact ⟨rfl, rfl⟩
      | other => cases hc
  | finalResult tn tid =>
      simp only [stepChunks] at hc
      split at hc
      · simp only [List.mem_singleton] at hc
        subst hc; exact ⟨rfl, rfl⟩
      · cases hc
  | functionToolCall => cases hc
  | functionToolResult r =>
      cases r with
      | toolReturn tn tid content =>
          simp only [stepChunks, List.mem_singleton] at hc
          subst hc; exact ⟨rfl, rfl⟩
      | retryPrompt tn tid content =>
          simp only [stepChunks, List.mem_singleton] at hc
          subst hc; exact ⟨rfl, rfl⟩
  | builtinToolCall tn tid args =>
      simp only [stepChunks, List.mem_cons] at hc
      rcases hc with rfl | hc
      · exact ⟨rfl, rfl⟩
      · obtain ⟨s, rfl⟩ := argsDeltaChunks_mem tid args c hc
        exact ⟨rfl, rfl⟩
  | builtinToolResult tid content =>
      simp only [stepChunks, List.mem_singleton] at hc
      subst hc; exact ⟨rfl, rfl⟩

theorem closingChunks_not_lifecycle (o : Option String) :
    ∀ c ∈ closingChunks o, isStartKind c = false ∧ isFinishKind c = false := by
  intro c hc
  cases o with
  | none => cases hc
  | some s =>
      simp only [closingChunks] at hc
      split at hc
      · cases hc
      · simp only [List.mem_singleton] at hc
        subst hc; exact ⟨rfl, rfl⟩

theorem flatMap_stepChunks_not_lifecycle (mid : String) (events : List AgentStreamEvent) :
    ∀ c ∈ events.flatMap (stepChunks mid),
      isStartKind c = false ∧ isFinishKind c = false := by
  intro c hc
  obtain ⟨e, he, hce⟩ := List.mem_flatMap.mp hc
  exact stepChunks_not_lifecycle mid e c hce

/-! ### Claim theorems -/

/-- C3 counterexample: for a `part-started(text)` event whose payload
carries no content (`content = ""`), the translator still emits a
`text-delta` chunk (with empty delta) right after `text-start`, contradicting
the claim that no `text-delta` is emitted in that case. -/
theorem text_part_start_empty_content_cex :
    translateEvents "m" [.partStart (.text "")] =
      [.StartChunk none none, .TextStartChunk "m" none, .TextDeltaChunk "" "m" none,
       .FinishChunk none] ∧
    UIMessageChunk.TextDeltaChunk "" "m" none ∈ translateEvents "m" [.partStart (.text "")] := by
  refine ⟨rfl, ?_⟩
  show UIMessageChunk.TextDeltaChunk "" "m" none ∈
    [UIMessageChunk.StartChunk none none, .TextStartChunk "m" none,
     .TextDeltaChunk "" "m" none, .FinishChunk none]
  exact List.mem_cons_of_mem _ (List.mem_cons_of_mem _ (List.mem_cons_self _ _))

/-- C3 amended: for every `part-started(text)` agent event the translator
emits `text-start(messageId)` followed unconditionally by
`text-delta(messageId, content)` — also when the content of the initiating payload
is empty. -/
theorem text_part_start_always_emits_delta (mid content : String) :
    stepChunks mid (.partStart (.text content)) =
      [.TextStartChunk mid none, .TextDeltaChunk content mid none] := rfl

/-- C4: an agent event sequence containing a `final-result-detected` event
with truthy `toolCallId` and `toolName` makes the translator (a) emit
`tool-input-start(toolCallId, toolName)` at that event, (b) record the id, and
(c) after the events are exhausted, append exactly one closing
`tool-output-available(recordedId, output = None)` followed by `finish`. -/
theorem final_result_recorded_and_closed (mid : String) (events : List AgentStreamEvent)
    (tn tid : Option String) (t n : String)
    (hmem : AgentStreamEvent.finalResult tn tid ∈ events)
    (htid : tid = some t) (ht : t ≠ "") (htn : tn = some n) (hn : n ≠ "") :
    stepChunks mid (.finalResult tn tid) = [.ToolInputStartChunk t n none none] ∧
    (∀ acc, stepFinal acc (.finalResult tn tid) = some t) ∧
    ∃ f, finalToolId events = some f ∧ f ≠ "" ∧
      translateEvents mid events =
        .StartChunk none none ::
          (events.flatMap (stepChunks mid) ++
            [.ToolOutputAvailableChunk f none none none none, .FinishChunk none]) := by
  have hcond : (optTruthy tid && optTruthy tn) = true := by
    rw [htid, htn]; simp [optTruthy, ht, hn]
  refine ⟨?_, ?_, ?_⟩
  · show (if optTruthy tid && optTruthy tn then
        [UIMessageChunk.ToolInputStartChunk (tid.getD "") (tn.getD "") none none]
      else []) = _
    rw [if_pos hcond, htid, htn]
    rfl
  · intro acc
    show (if optTruthy tid && optTruthy tn then tid else acc) = some t
    rw [if_pos hcond, htid]
  · obtain ⟨f, hf, hfne⟩ := foldl_stepFinal_truthy events none
      (Or.inl ⟨tn, tid, hmem, by rw [htid]; simp [optTruthy, ht],
        by rw [htn]; simp [optTruthy, hn]⟩)
    refine ⟨f, hf, hfne, ?_⟩
    have hclose : closingChunks (finalToolId events) =
        [.ToolOutputAvailableChunk f none none none none] := by
      rw [show finalToolId events = some f from hf]
      simp [closingChunks, hfne]
    simp [translateEvents, hclose]

/-- Witness for C4 at a concrete input. -/
theorem final_result_recorded_and_closed_witness :
    (AgentStreamEvent.finalResult (some "calc") (some "t1") ∈
      [AgentStreamEvent.finalResult (some "calc") (some "t1")]) ∧
    (stepChunks "m" (.finalResult (some "calc") (some "t1")) =
        [.ToolInputStartChunk "t1" "calc" none none] ∧
      (∀ acc, stepFinal acc (.finalResult (some "calc") (some "t1")) = some "t1") ∧
      ∃ f, finalToolId [AgentStreamEvent.finalResult (some "calc") (some "t1")] = some f ∧
        f ≠ "" ∧
        translateEvents "m" [AgentStreamEvent.finalResult (some "calc") (some "t1")] =
          .StartChunk none none ::
            ([AgentStreamEvent.finalResult (some "calc") (some "t1")].flatMap
                (stepChunks "m") ++
              [.ToolOutputAvailableChunk f none none none none, .FinishChunk none])) :=
  ⟨List.mem_cons_self _ _,
    final_result_recorded_and_closed "m" _ _ _ "t1" "calc" (List.mem_cons_self _ _) rfl
      (by decide) rfl (by decide)⟩

/-- C5: an otherwise valid request whose `messages` list is empty is
answered by the synthetic diagnostic stream — the agent is not invoked
(`routeRequest` selects the `fallbackStream` outcome, never `agentStream`) —
and that stream is exactly the six chunks
`start, start-step, reasoning-start, reasoning-delta("Error: no messages provided"),
finish-step, finish`. -/
theorem empty_messages_diagnostic_stream (d : RequestData) (mid : String)
    (h : d.messages = []) :
    routeRequest d = .fallbackStream "Error: no messages provided" ∧
    text_response mid "Error: no messages provided" =
      [.StartChunk none none, .StartStepChunk, .ReasoningStartChunk mid none,
       .ReasoningDeltaChunk mid "Error: no messages provided" none, .FinishStepChunk,
       .FinishChunk none] := by
  refine ⟨?_, rfl⟩
  simp [routeRequest, h]

/-- Witness for C5 at a concrete input. -/
theorem empty_messages_diagnostic_stream_witness :
    (RequestData.submitMessage "r1" [] "openai:gpt-4.1" true).messages = [] ∧
    (routeRequest (.submitMessage "r1" [] "openai:gpt-4.1" true) =
        .fallbackStream "Error: no messages provided" ∧
      text_response "m" "Error: no messages provided" =
        [.StartChunk none none, .StartStepChunk, .ReasoningStartChunk "m" none,
         .ReasoningDeltaChunk "m" "Error: no messages provided" none, .FinishStepChunk,
         .FinishChunk none]) :=
  ⟨rfl, empty_messages_diagnostic_stream (.submitMessage "r1" [] "openai:gpt-4.1" true) "m" rfl⟩

/-- C6: a valid request whose last message contains at least one non-text
part is not a validation error: routing selects the synthetic diagnostic
stream whose reasoning-delta payload is
`"Error: only text parts are supported yet"` (the agent is skipped). -/
theorem non_text_part_diagnostic_stream (d : RequestData) (m : UIMessage)
    (hm : d.messages.getLast? = some m) (p : UIMessagePart) (hp : p ∈ m.parts)
    (hnt : p.isText = false) :
    routeRequest d = .fallbackStream "Error: only text parts are supported yet" := by
  simp [routeRequest, hm, promptParts_eq_none m.parts p hp hnt]

/-- Witness for C6 at a concrete input. -/
theorem non_text_part_diagnostic_stream_witness :
    ((RequestData.submitMessage "r1"
        [⟨"u1", .user, none, [.FileUIPart "image/png" none "http://x" none]⟩]
        "openai:gpt-4.1" false).messages.getLast? =
      some ⟨"u1", .user, none, [.FileUIPart "image/png" none "http://x" none]⟩) ∧
    (UIMessagePart.FileUIPart "image/png" none "http://x" none ∈
      (⟨"u1", Role.user, none, [.FileUIPart "image/png" none "http://x" none]⟩ :
        UIMessage).parts) ∧
    (UIMessagePart.FileUIPart "image/png" none "http://x" none).isText = false ∧
    routeRequest (.submitMessage "r1"
        [⟨"u1", .user, none, [.FileUIPart "image/png" none "http://x" none]⟩]
        "openai:gpt-4.1" false) =
      .fallbackStream "Error: only text parts are supported yet" :=
  ⟨rfl, List.mem_cons_self _ _, rfl,
    non_text_part_diagnostic_stream _ _ rfl _ (List.mem_cons_self _ _) rfl⟩

/-- C9: a `final-result-detected` event whose `toolCallId` or `toolName` is
the empty string produces no chunk, leaves the recorded final-result id
unchanged, and — in a sequence where no final-result event is truthy — no
closing `tool-output-available` is appended before `finish`. -/
theorem final_result_empty_field_ignored (mid : String) (tn tid : Option String)
    (h : tid = some "" ∨ tn = some "") :
    stepChunks mid (.finalResult tn tid) = [] ∧
    (∀ acc, stepFinal acc (.finalResult tn tid) = acc) ∧
    ∀ events : List AgentStreamEvent,
      (∀ tn2 tid2, AgentStreamEvent.finalResult tn2 tid2 ∈ events →
        (optTruthy tid2 && optTruthy tn2) = false) →
      translateEvents mid events =
        .StartChunk none none :: (events.flatMap (stepChunks mid) ++ [.FinishChunk none]) := by
  have hcond : (optTruthy tid && optTruthy tn) = false := by
    rcases h with rfl | rfl <;> simp [optTruthy]
  refine ⟨?_, ?_, ?_⟩
  · show (if optTruthy tid && optTruthy tn then
        [UIMessageChunk.ToolInputStartChunk (tid.getD "") (tn.getD "") none none]
      else []) = []
    rw [if_neg (by simp [hcond])]
  · intro acc
    show (if optTruthy tid && optTruthy tn then tid else acc) = acc
    rw [if_neg (by simp [hcond])]
  · intro events hev
    have hnone : finalToolId events = none := foldl_stepFinal_none events hev
    simp [translateEvents, hnone, closingChunks]

/-- Witness for C9 at a concrete input. -/
theorem final_result_empty_field_ignored_witness :
    ((some "" : Option String) = some "" ∨ (some "calc" : Option String) = some "") ∧
    (stepChunks "m" (.finalResult (some "calc") (some "")) = [] ∧
      (∀ acc, stepFinal acc (.finalResult (some "calc") (some "")) = acc) ∧
      ∀ events : List AgentStreamEvent,
        (∀ tn2 tid2, AgentStreamEvent.finalResult tn2 tid2 ∈ events →
          (optTruthy tid2 && optTruthy tn2) = false) →
        translateEvents "m" events =
          .StartChunk none none ::
            (events.flatMap (stepChunks "m") ++ [.FinishChunk none])) :=
  ⟨Or.inl rfl, final_result_empty_field_ignored "m" (some "calc") (some "") (Or.inl rfl)⟩

/-- C10: for a valid request in which all parts of the last message are text, the
agent is invoked with exactly the newline-joined texts of the parts of that
last message; and the outcome depends only on the last message, so earlier messages
contribute nothing. -/
theorem all_text_last_message_prompt (d : RequestData) (m : UIMessage)
    (hm : d.messages.getLast? = some m)
    (ht : ∀ p ∈ m.parts, p.isText = true) :
    routeRequest d = .agentStream (String.intercalate "\n" (m.parts.filterMap partText)) ∧
    ∀ d2 : RequestData, d2.messages.getLast? = some m → routeRequest d2 = routeRequest d := by
  refine ⟨?_, fun d2 h2 => routeRequest_getLast d2 d (h2.trans hm.symm)⟩
  simp [routeRequest, hm, promptParts_all_text m.parts ht]

/-- Witness for C10 at a concrete input. -/
theorem all_text_last_message_prompt_witness :
    ((RequestData.submitMessage "r1"
        [⟨"u0", .user, none, [.FileUIPart "image/png" none "http://x" none]⟩,
         ⟨"u1", .user, none,
          [.TextUIPart "hello" none none, .TextUIPart "world" none none]⟩]
        "openai:gpt-4.1" true).messages.getLast? =
      some ⟨"u1", .user, none,
        [.TextUIPart "hello" none none, .TextUIPart "world" none none]⟩) ∧
    (∀ p ∈ (⟨"u1", Role.user, none,
        [.TextUIPart "hello" none none, .TextUIPart "world" none none]⟩ :
          UIMessage).parts, p.isText = true) ∧
    routeRequest (.submitMessage "r1"
        [⟨"u0", .user, none, [.FileUIPart "image/png" none "http://x" none]⟩,
         ⟨"u1", .user, none,
          [.TextUIPart "hello" none none, .TextUIPart "world" none none]⟩]
        "openai:gpt-4.1" true) =
      .agentStream (String.intercalate "\n"
        (((⟨"u1", Role.user, none,
            [.TextUIPart "hello" none none, .TextUIPart "world" none none]⟩ :
              UIMessage).parts).filterMap partText)) := by
  refine ⟨rfl, ?_, ?_⟩
  · intro p hp
    rcases List.mem_cons.mp hp with rfl | hp2
    · rfl
    · rcases List.mem_cons.mp hp2 with rfl | hp3
      · rfl
      · cases hp3
  · exact (all_text_last_message_prompt
      (.submitMessage "r1"
        [⟨"u0", .user, none, [.FileUIPart "image/png" none "http://x" none]⟩,
         ⟨"u1", .user, none,
          [.TextUIPart "hello" none none, .TextUIPart "world" none none]⟩]
        "openai:gpt-4.1" true)
      ⟨"u1", .user, none,
        [.TextUIPart "hello" none none, .TextUIPart "world" none none]⟩
      rfl (by
      intro p hp
      rcases List.mem_cons.mp hp with rfl | hp2
      · rfl
      · rcases List.mem_cons.mp hp2 with rfl | hp3
        · rfl
        · cases hp3)).1

/-- C7: on both the agent path (`translateEvents`, any event sequence) and
the diagnostic fallback path (`text_response`), the produced chunk sequence
contains exactly one `start` and exactly one `finish` chunk, with `start`
first and `finish` last. -/
theorem stream_start_finish_exactly_once (mid text : String)
    (events : List AgentStreamEvent) :
    ((translateEvents mid events).head? = some (.StartChunk none none) ∧
     (translateEvents mid events).getLast? = some (.FinishChunk none) ∧
     (translateEvents mid events).countP isStartKind = 1 ∧
     (translateEvents mid events).countP isFinishKind = 1) ∧
    ((text_response mid text).head? = some (.StartChunk none none) ∧
     (text_response mid text).getLast? = some (.FinishChunk none) ∧
     (text_response mid text).countP isStartKind = 1 ∧
     (text_response mid text).countP isFinishKind = 1) := by
  have hAstart : (events.flatMap (stepChunks mid)).countP isStartKind = 0 :=
    List.countP_eq_zero.mpr (fun c hc => by
      simp [(flatMap_stepChunks_not_lifecycle mid events c hc).1])
  have hAfinish : (events.flatMap (stepChunks mid)).countP isFinishKind = 0 :=
    List.countP_eq_zero.mpr (fun c hc => by
      simp [(flatMap_stepChunks_not_lifecycle mid events c hc).2])
  have hBstart : (closingChunks (finalToolId events)).countP isStartKind = 0 :=
    List.countP_eq_zero.mpr (fun c hc => by
      simp [(closingChunks_not_lifecycle _ c hc).1])
  have hBfinish : (closingChunks (finalToolId events)).countP isFinishKind = 0 :=
    List.countP_eq_zero.mpr (fun c hc => by
      simp [(closingChunks_not_lifecycle _ c hc).2])
  refine ⟨⟨rfl, ?_, ?_, ?_⟩, rfl, rfl, rfl, rfl⟩
  · show (UIMessageChunk.StartChunk none none ::
      (events.flatMap (stepChunks mid) ++ closingChunks (finalToolId events) ++
        [UIMessageChunk.FinishChunk none])).getLast? = some (.FinishChunk none)
    rw [← List.cons_append]
    exact List.getLast?_concat _
  · simp [translateEvents, List.countP_cons, List.countP_append, hAstart, hBstart,
      isStartKind]
  · simp [translateEvents, List.countP_cons, List.countP_append, hAfinish, hBfinish,
      isFinishKind]

theorem contains_append_left {s : List String} (t : List String) {a : String}
    (h : s.contains a = true) : (s ++ t).contains a = true := by
  simp at h ⊢; exact Or.inl h

theorem startBeforeUseAux_append (xs ys : List UIMessageChunk) (s : List String) :
    startBeforeUseAux s (xs ++ ys) =
      (startBeforeUseAux s xs && startBeforeUseAux (s ++ startsOf xs) ys) := by
  induction xs generalizing s with
  | nil => simp [startBeforeUseAux, startsOf]
  | cons c rest ih =>
      have h1 : startBeforeUseAux s ((c :: rest) ++ ys) =
          ((match chunkUses c with
            | none => true
            | some i => s.contains i) &&
            startBeforeUseAux (s ++ (chunkStarts c).toList) (rest ++ ys)) := rfl
      have h2 : startBeforeUseAux s (c :: rest) =
          ((match chunkUses c with
            | none => true
            | some i => s.contains i) &&
            startBeforeUseAux (s ++ (chunkStarts c).toList) rest) := rfl
      have h3 : startsOf (c :: rest) = (chunkStarts c).toList ++ startsOf rest := by
        simp [startsOf]
      rw [h1, h2, ih, h3, Bool.and_assoc, List.append_assoc]

theorem startsOf_stepChunks (mid : String) (e : AgentStreamEvent) :
    startsOf (stepChunks mid e) = eventStarts mid e := by
  cases e with
  | partStart p =>
      cases p with
      | text content => rfl
      | toolCall tn tid args =>
          cases args with
          | none => rfl
          | some a => cases a <;> rfl
      | builtinToolCall tn tid args =>
          cases args with
          | none => rfl
          | some a => cases a <;> rfl
      | builtinToolReturn tn tid content => rfl
      | thinking content => rfl
      | other => rfl
  | partDelta d =>
      cases d with
      | textDelta cd => rfl
      | thinkingDelta cd =>
          cases cd with
          | none => rfl
          | some s =>
              simp only [stepChunks, chunksOfPartDelta, eventStarts]
              split <;> rfl
      | toolCallDelta args tid =>
          cases args with
          | none => rfl
          | some a => cases a <;> rfl
      | other => rfl
  | finalResult tn tid =>
      simp only [stepChunks, eventStarts]
      split <;> rfl
  | functionToolCall => rfl
  | functionToolResult r => cases r <;> rfl
  | builtinToolCall tn tid args =>
      cases args with
      | none => rfl
      | some a => cases a <;> rfl
  | builtinToolResult tid content => rfl

theorem startBeforeUseAux_stepChunks (mid : String) (s : List String)
    (e : AgentStreamEvent) (h : (eventUses mid e).all s.contains = true) :
    startBeforeUseAux s (stepChunks mid e) = true := by
  cases e with
  | partStart p =>
      cases p with
      | text content =>
          simp [startBeforeUseAux, stepChunks, chunksOfPartStart, chunkUses, chunkStarts]
      | toolCall tn tid args =>
          cases args with
          | none => rfl
          | some a =>
              cases a <;>
                simp [startBeforeUseAux, stepChunks, chunksOfPartStart, argsDeltaChunks,
                  chunkUses, chunkStarts]
      | builtinToolCall tn tid args =>
          cases args with
          | none => rfl
          | some a =>
              cases a <;>
                simp [startBeforeUseAux, stepChunks, chunksOfPartStart, argsDeltaChunks,
                  chunkUses, chunkStarts]
      | builtinToolReturn tn tid content =>
          simp only [eventUses] at h
          simp at h
          simp [startBeforeUseAux, stepChunks, chunksOfPartStart, chunkUses, h]
      | thinking content =>
          simp [startBeforeUseAux, stepChunks, chunksOfPartStart, chunkUses, chunkStarts]
      | other => rfl
  | partDelta d =>
      cases d with
      | textDelta cd =>
          simp only [eventUses] at h
          simp at h
          simp [startBeforeUseAux, stepChunks, chunksOfPartDelta, chunkUses, h]
      | thinkingDelta cd =>
          cases cd with
          | none => rfl
          | some str =>
              by_cases hs : str = ""
              · simp [startBeforeUseAux, stepChunks, chunksOfPartDelta, hs]
              · simp only [eventUses] at h
                simp [hs] at h
                simp [startBeforeUseAux, stepChunks, chunksOfPartDelta, hs, chunkUses, h]
      | toolCallDelta args tid =>
          cases args with
          | none => rfl
          | some a =>
              simp only [eventUses] at h
              simp at h
              cases a <;>
                simp [startBeforeUseAux, stepChunks, chunksOfPartDelta, argsDeltaChunks,
                  chunkUses, h]
      | other => rfl
  | finalResult tn tid =>
      simp only [stepChunks]
      split
      · simp [startBeforeUseAux, chunkUses]
      · rfl
  | functionToolCall => rfl
  | functionToolResult r =>
      cases r with
      | toolReturn tn tid content =>
          simp only [eventUses] at h
          simp at h
          simp [startBeforeUseAux, stepChunks, chunkUses, h]
      | retryPrompt tn tid content =>
          simp only [eventUses] at h
          simp at h
          simp [startBeforeUseAux, stepChunks, chunkUses, h]
  | builtinToolCall tn tid args =>
      cases args with
      | none => rfl
      | some a =>
          cases a <;>
            simp [startBeforeUseAux, stepChunks, argsDeltaChunks, chunkUses, chunkStarts]
  | builtinToolResult tid content =>
      simp only [eventUses] at h
      simp at h
      simp [startBeforeUseAux, stepChunks, chunkUses, h]

theorem startBeforeUseAux_flatMap (mid : String) (events : List AgentStreamEvent) :
    ∀ s : List String, wellFormedAux mid s events = true →
      startBeforeUseAux s (events.flatMap (stepChunks mid)) = true := by
  induction events with
  | nil => intro s _; rfl
  | cons e rest ih =>
      intro s h
      rw [List.flatMap_cons, startBeforeUseAux_append]
      simp only [wellFormedAux, Bool.and_eq_true] at h
      rw [startsOf_stepChunks]
      rw [startBeforeUseAux_stepChunks mid s e h.1, ih _ h.2]
      rfl

theorem startsOf_flatMap_stepChunks (mid : String) (events : List AgentStreamEvent) :
    startsOf (events.flatMap (stepChunks mid)) = events.flatMap (eventStarts mid) := by
  induction events with
  | nil => rfl
  | cons e rest ih =>
      rw [List.flatMap_cons, List.flatMap_cons]
      show ((stepChunks mid e ++ rest.flatMap (stepChunks mid)).flatMap
          (fun c => (chunkStarts c).toList)) =
        eventStarts mid e ++ rest.flatMap (eventStarts mid)
      rw [List.flatMap_append]
      rw [show (stepChunks mid e).flatMap (fun c => (chunkStarts c).toList) =
        eventStarts mid e from startsOf_stepChunks mid e]
      rw [show (rest.flatMap (stepChunks mid)).flatMap (fun c => (chunkStarts c).toList) =
        rest.flatMap (eventStarts mid) from ih]

theorem foldl_stepFinal_mem_starts (mid : String) (events : List AgentStreamEvent) :
    ∀ (acc : Option String) (s : List String),
      (∀ f, acc = some f → s.contains f = true) →
      ∀ f, events.foldl stepFinal acc = some f →
        (s ++ events.flatMap (eventStarts mid)).contains f = true := by
  induction events with
  | nil =>
      intro acc s hacc f hf
      simp only [List.foldl_nil] at hf
      have := hacc f hf
      simp at this ⊢
      exact this
  | cons e rest ih =>
      intro acc s hacc f hf
      rw [List.foldl_cons] at hf
      have key : ((s ++ eventStarts mid e) ++ rest.flatMap (eventStarts mid)).contains f =
          true := by
        refine ih (stepFinal acc e) (s ++ eventStarts mid e) ?_ f hf
        intro g hg
        cases e with
        | finalResult tn tid =>
            by_cases hc : (optTruthy tid && optTruthy tn) = true
            · have hstep : stepFinal acc (.finalResult tn tid) = tid := by
                show (if optTruthy tid && optTruthy tn then tid else acc) = tid
                rw [if_pos hc]
              rw [hstep] at hg
              have hstarts : eventStarts mid (.finalResult tn tid) = [tid.getD ""] := by
                show (if optTruthy tid && optTruthy tn then [tid.getD ""] else []) =
                  [tid.getD ""]
                rw [if_pos hc]
              rw [hstarts, hg]
              simp
            · have hstep : stepFinal acc (.finalResult tn tid) = acc := by
                show (if optTruthy tid && optTruthy tn then tid else acc) = acc
                rw [if_neg hc]
              rw [hstep] at hg
              exact contains_append_left _ (hacc g hg)
        | partStart p => exact contains_append_left _ (hacc g hg)
        | partDelta d => exact contains_append_left _ (hacc g hg)
        | functionToolCall => exact contains_append_left _ (hacc g hg)
        | functionToolResult r => exact contains_append_left _ (hacc g hg)
        | builtinToolCall tn tid args => exact contains_append_left _ (hacc g hg)
        | builtinToolResult tid content => exact contains_append_left _ (hacc g hg)
      rw [List.flatMap_cons]
      rw [← List.append_assoc]
      exact key

/-- C1 counterexample: the translator keeps no record of which ids have
been started, so the agent event sequence consisting of a single
`part-delta(text)` event yields an output stream whose `text-delta` chunk
references an id with no earlier start chunk: the claimed invariant fails for
this event sequence. -/
theorem start_before_use_cex :
    translateEvents "m" [.partDelta (.textDelta "hi")] =
      [.StartChunk none none, .TextDeltaChunk "hi" "m" none, .FinishChunk none] ∧
    startBeforeUse (translateEvents "m" [.partDelta (.textDelta "hi")]) = false :=
  ⟨rfl, rfl⟩

/-- C1 amended: the start-before-use invariant holds for the output of
the translator provided the agent event sequence is well-formed — every event
whose chunks reference an id is preceded by an event whose chunks introduce
that id (`wellFormedEvents`); the translator itself does not enforce this. -/
theorem translator_start_before_use (mid : String) (events : List AgentStreamEvent)
    (h : wellFormedEvents mid events = true) :
    startBeforeUse (translateEvents mid events) = true := by
  show startBeforeUseAux [] (.StartChunk none none ::
    (events.flatMap (stepChunks mid) ++ closingChunks (finalToolId events) ++
      [.FinishChunk none])) = true
  have hhead : startBeforeUseAux []
      (UIMessageChunk.StartChunk none none ::
        (events.flatMap (stepChunks mid) ++ closingChunks (finalToolId events) ++
          [.FinishChunk none])) =
      startBeforeUseAux []
        (events.flatMap (stepChunks mid) ++ closingChunks (finalToolId events) ++
          [.FinishChunk none]) := rfl
  rw [hhead, startBeforeUseAux_append, startBeforeUseAux_append]
  have hA : startBeforeUseAux [] (events.flatMap (stepChunks mid)) = true :=
    startBeforeUseAux_flatMap mid events [] h
  have hB : startBeforeUseAux ([] ++ startsOf (events.flatMap (stepChunks mid)))
      (closingChunks (finalToolId events)) = true := by
    cases hfid : finalToolId events with
    | none => rfl
    | some f =>
        show startBeforeUseAux _ (if f = "" then [] else
          [.ToolOutputAvailableChunk f none none none none]) = true
        split
        · rfl
        · have hmem : ([] ++ events.flatMap (eventStarts mid)).contains f = true :=
            foldl_stepFinal_mem_starts mid events none []
              (fun g hg => by cases hg) f hfid
          rw [startsOf_flatMap_stepChunks]
          simp only [startBeforeUseAux, chunkUses]
          simp at hmem ⊢
          exact hmem
  have hC : ∀ t : List String, startBeforeUseAux t [UIMessageChunk.FinishChunk none] = true :=
    fun t => rfl
  rw [hA, hB, hC]
  rfl

theorem decodePM_encodePM (m : PMeta) : decodePM (encodePM m) = some m := by
  induction m with
  | nil => rfl
  | cons kv rest ih =>
      simp only [encodePM, List.map_cons, decodePM, decodePMFields] at ih ⊢
      simp [ih]

/-- C8 amended: encoding a chunk to its wire JSON (null-valued optional
fields omitted, lowerCamelCase keys) and decoding it back yields the original
chunk — for every chunk except a `DataUIMessageChunk` whose free-form `type`
collides with one of the 22 reserved kind discriminators (the documented
`data-{NAME}` convention excludes such collisions).  Omitted optional fields
decode as absent (`none`), not null. -/
theorem chunk_roundtrip (c : UIMessageChunk) (h : permittedChunk c = true) :
    decodeChunk (encodeChunk c) = some c := by
  cases c with
  | TextStartChunk i pm =>
      cases pm <;>
        simp [encodeChunk, decodeChunk, decodeTextStart, keysSub, optField, reqStr,
          optPMField, J.asStr, List.lookup, decodePM_encodePM]
  | TextDeltaChunk delta i pm =>
      cases pm <;>
        simp [encodeChunk, decodeChunk, decodeTextDelta, keysSub, optField, reqStr,
          optPMField, J.asStr, List.lookup, decodePM_encodePM]
  | TextEndChunk i pm =>
      cases pm <;>
        simp [encodeChunk, decodeChunk, decodeTextEnd, keysSub, optField, reqStr,
          optPMField, J.asStr, List.lookup, decodePM_encodePM]
  | ReasoningStartChunk i pm =>
      cases pm <;>
        simp [encodeChunk, decodeChunk, decodeReasoningStart, keysSub, optField, reqStr,
          optPMField, J.asStr, List.lookup, decodePM_encodePM]
  | ReasoningDeltaChunk i delta pm =>
      cases pm <;>
        simp [encodeChunk, decodeChunk, decodeReasoningDelta, keysSub, optField, reqStr,
          optPMField, J.asStr, List.lookup, decodePM_encodePM]
  | ReasoningEndChunk i pm =>
      cases pm <;>
        simp [encodeChunk, decodeChunk, decodeReasoningEnd, keysSub, optField, reqStr,
          optPMField, J.asStr, List.lookup, decodePM_encodePM]
  | ErrorChunk errorText =>
      simp [encodeChunk, decodeChunk, decodeError, keysSub, reqStr, J.asStr, List.lookup]
  | ToolInputAvailableChunk toolCallId toolName input pe pm dyn =>
      cases input <;> cases pe <;> cases pm <;> cases dyn <;>
        simp [encodeChunk, decodeChunk, decodeToolInputAvailable, keysSub, optField,
          reqStr, optBoolField, optPMField, anyField, J.asStr, J.asBool, List.lookup,
          decodePM_encodePM]
  | ToolInputErrorChunk toolCallId toolName input pe pm dyn errorText =>
      cases input <;> cases pe <;> cases pm <;> cases dyn <;>
        simp [encodeChunk, decodeChunk, decodeToolInputError, keysSub, optField,
          reqStr, optBoolField, optPMField, anyField, J.asStr, J.asBool, List.lookup,
          decodePM_encodePM]
  | ToolOutputAvailableChunk toolCallId output pe dyn prelim =>
      cases output <;> cases pe <;> cases dyn <;> cases prelim <;>
        simp [encodeChunk, decodeChunk, decodeToolOutputAvailable, keysSub, optField,
          reqStr, optBoolField, anyField, J.asStr, J.asBool, List.lookup]
  | ToolOutputErrorChunk toolCallId errorText pe dyn =>
      cases pe <;> cases dyn <;>
        simp [encodeChunk, decodeChunk, decodeToolOutputError, keysSub, optField,
          reqStr, optBoolField, J.asStr, J.asBool, List.lookup]
  | ToolInputStartChunk toolCallId toolName pe dyn =>
      cases pe <;> cases dyn <;>
        simp [encodeChunk, decodeChunk, decodeToolInputStart, keysSub, optField,
          reqStr, optBoolField, J.asStr, J.asBool, List.lookup]
  | ToolInputDeltaChunk toolCallId inputTextDelta =>
      simp [encodeChunk, decodeChunk, decodeToolInputDelta, keysSub, reqStr, J.asStr,
        List.lookup]
  | SourceUrlChunk sourceId url title pm =>
      cases title <;> cases pm <;>
        simp [encodeChunk, decodeChunk, decodeSourceUrl, keysSub, optField, reqStr,
          optStrField, optPMField, J.asStr, List.lookup, decodePM_encodePM]
  | SourceDocumentChunk sourceId mediaType title filename pm =>
      cases filename <;> cases pm <;>
        simp [encodeChunk, decodeChunk, decodeSourceDocument, keysSub, optField, reqStr,
          optStrField, optPMField, J.asStr, List.lookup, decodePM_encodePM]
  | FileChunk url mediaType =>
      simp [encodeChunk, decodeChunk, decodeFile, keysSub, reqStr, J.asStr, List.lookup]
  | DataUIMessageChunk ty d =>
      simp [permittedChunk, reservedChunkTypes] at h
      cases d <;>
        simp [encodeChunk, decodeChunk, decodeData, keysSub, optField, anyField,
          List.lookup, h]
  | StartStepChunk =>
      simp [encodeChunk, decodeChunk, decodeStartStep, keysSub, List.lookup]
  | FinishStepChunk =>
      simp [encodeChunk, decodeChunk, decodeFinishStep, keysSub, List.lookup]
  | StartChunk messageId messageMetadata =>
      cases messageId <;> cases messageMetadata <;>
        simp [encodeChunk, decodeChunk, decodeStart, keysSub, optField, optStrField,
          anyField, J.asStr, List.lookup]
  | FinishChunk messageMetadata =>
      cases messageMetadata <;>
        simp [encodeChunk, decodeChunk, decodeFinish, keysSub, optField, anyField,
          List.lookup]
  | AbortChunk =>
      simp [encodeChunk, decodeChunk, decodeAbort, keysSub, List.lookup]
  | MessageMetadataChunk messageMetadata =>
      cases messageMetadata <;>
        simp [encodeChunk, decodeChunk, decodeMessageMetadata, keysSub, optField,
          anyField, List.lookup]

/-- C8 counterexample: the encoder is not injective on the 23 chunk kinds —
the data chunk with type `"start"` and `data = None` has exactly the same wire
JSON as the plain `start` chunk with all-`None` fields, so no decoder can
invert the encoding for both; concretely, decoding the wire form of that data
chunk yields the `start` chunk, not the original value. -/
theorem chunk_roundtrip_cex :
    encodeChunk (.DataUIMessageChunk "start" none) = encodeChunk (.StartChunk none none) ∧
    UIMessageChunk.DataUIMessageChunk "start" none ≠ .StartChunk none none ∧
    decodeChunk (encodeChunk (.DataUIMessageChunk "start" none)) =
      some (.StartChunk none none) ∧
    decodeChunk (encodeChunk (.DataUIMessageChunk "start" none)) ≠
      some (.DataUIMessageChunk "start" none) := by
  have h3 : decodeChunk (encodeChunk (.DataUIMessageChunk "start" none)) =
      some (.StartChunk none none) := rfl
  refine ⟨rfl, by simp, h3, ?_⟩
  rw [h3]
  simp

/-- Witness for C8 at a concrete permitted chunk. -/
theorem chunk_roundtrip_witness :
    permittedChunk (.DataUIMessageChunk "data-weather" (some (.num 3))) = true ∧
    decodeChunk (encodeChunk (.DataUIMessageChunk "data-weather" (some (.num 3)))) =
      some (.DataUIMessageChunk "data-weather" (some (.num 3))) :=
  ⟨by decide, chunk_roundtrip (.DataUIMessageChunk "data-weather" (some (.num 3)))
    (by decide)⟩

/-- Witness for the amended C1 at a concrete well-formed event sequence. -/
theorem translator_start_before_use_witness :
    wellFormedEvents "m"
      [.partStart (.text "Hi"), .partDelta (.textDelta "!"),
       .partStart (.toolCall "calc" "t1" (some (.str "args"))),
       .functionToolResult (.toolReturn "calc" "t1" none)] = true ∧
    startBeforeUse (translateEvents "m"
      [.partStart (.text "Hi"), .partDelta (.textDelta "!"),
       .partStart (.toolCall "calc" "t1" (some (.str "args"))),
       .functionToolResult (.toolReturn "calc" "t1" none)]) = true :=
  ⟨by decide, translator_start_before_use "m" _ (by decide)⟩

theorem lookup_append_single_ne (fs : List (String × J)) (k k2 : String) (v : J)
    (h : k2 ≠ k) : (fs ++ [(k, v)]).lookup k2 = fs.lookup k2 := by
  induction fs with
  | nil =>
      simp only [List.nil_append, List.lookup]
      rw [show (k2 == k) = false from beq_eq_false_iff_ne.mpr h]
  | cons kv rest ih =>
      cases kv with
      | mk k3 v3 =>
          simp only [List.cons_append, List.lookup]
          split
          · rfl
          · exact ih

theorem validateSubmitMessage_append (fs : List (String × J)) (k : String) (v : J)
    (h1 : k ≠ "id") (h2 : k ≠ "messages") (h3 : k ≠ "model") (h4 : k ≠ "webSearch") :
    validateSubmitMessage (fs ++ [(k, v)]) = validateSubmitMessage fs := by
  simp only [validateSubmitMessage, reqStr, reqBool]
  rw [lookup_append_single_ne fs k "id" v (Ne.symm h1),
    lookup_append_single_ne fs k "messages" v (Ne.symm h2),
    lookup_append_single_ne fs k "model" v (Ne.symm h3),
    lookup_append_single_ne fs k "webSearch" v (Ne.symm h4)]

theorem validateRegenerateMessage_append (fs : List (String × J)) (k : String) (v : J)
    (h1 : k ≠ "id") (h2 : k ≠ "messages") (h3 : k ≠ "messageId") :
    validateRegenerateMessage (fs ++ [(k, v)]) = validateRegenerateMessage fs := by
  simp only [validateRegenerateMessage, reqStr]
  rw [lookup_append_single_ne fs k "id" v (Ne.symm h1),
    lookup_append_single_ne fs k "messages" v (Ne.symm h2),
    lookup_append_single_ne fs k "messageId" v (Ne.symm h3)]

/-- C2 counterexample: an otherwise valid `submit-message` request carrying
the unknown top-level field `bogus` is accepted by validation (the request
models are plain `BaseModel`s whose pydantic default policy ignores extras), not
rejected as the claim states. -/
theorem unknown_top_level_field_accepted_cex :
    validateRequest (.obj [("trigger", .str "submit-message"), ("id", .str "r1"),
      ("messages", .arr []), ("model", .str "openai:gpt-4.1"),
      ("webSearch", .bool true), ("bogus", .num 1)]) =
      some (.submitMessage "r1" [] "openai:gpt-4.1" true) := rfl

/-- C2 amended: unknown fields are ignored at the top level of the
request object — appending a field whose key is none of the declared aliases
of either request variant never changes the validation result — while unknown
fields inside a `UIMessage` object (a `CamelBaseModel`, which forbids extras)
always make validation of that message fail. -/
theorem unknown_fields_top_ignored_nested_rejected
    (fs : List (String × J)) (k : String) (v : J)
    (hk : k ∉ ["trigger", "id", "messages", "model", "webSearch", "messageId"]) :
    validateRequest (.obj (fs ++ [(k, v)])) = validateRequest (.obj fs) ∧
    ∀ (fs2 : List (String × J)) (k2 : String) (v2 : J),
      (k2, v2) ∈ fs2 → k2 ∉ ["id", "role", "metadata", "parts"] →
      validateUIMessage (.obj fs2) = none := by
  simp only [List.mem_cons, List.not_mem_nil, or_false, not_or] at hk
  obtain ⟨hk1, hk2, hk3, hk4, hk5, hk6⟩ := hk
  constructor
  · simp only [validateRequest]
    rw [lookup_append_single_ne fs k "trigger" v (Ne.symm hk1)]
    cases htr : fs.lookup "trigger" with
    | none => rfl
    | some t =>
        cases t with
        | str s =>
            by_cases hs1 : s = "submit-message"
            · simp [hs1, validateSubmitMessage_append fs k v hk2 hk3 hk4 hk5]
            · by_cases hs2 : s = "regenerate-message"
              · simp [hs1, hs2, validateRegenerateMessage_append fs k v hk2 hk3 hk6]
              · simp [hs1, hs2]
        | bool b => rfl
        | num n => rfl
        | arr elems => rfl
        | obj fields => rfl
  · intro fs2 k2 v2 hmem hk2mem
    have hfalse : keysSub fs2 ["id", "role", "metadata", "parts"] = false := by
      rw [Bool.eq_false_iff]
      intro hall
      have := List.all_eq_true.mp hall (k2, v2) hmem
      simp at this
      simp [this] at hk2mem
    simp [validateUIMessage, hfalse]

/-- Witness for the amended C2 at a concrete input. -/
theorem unknown_fields_top_ignored_nested_rejected_witness :
    ("bogus" ∉ ["trigger", "id", "messages", "model", "webSearch", "messageId"]) ∧
    (validateRequest (.obj ([("trigger", .str "submit-message"), ("id", .str "r1"),
        ("messages", .arr []), ("model", .str "openai:gpt-4.1"),
        ("webSearch", .bool true)] ++ [("bogus", .num 1)])) =
      validateRequest (.obj [("trigger", .str "submit-message"), ("id", .str "r1"),
        ("messages", .arr []), ("model", .str "openai:gpt-4.1"),
        ("webSearch", .bool true)]) ∧
      ∀ (fs2 : List (String × J)) (k2 : String) (v2 : J),
        (k2, v2) ∈ fs2 → k2 ∉ ["id", "role", "metadata", "parts"] →
        validateUIMessage (.obj fs2) = none) :=
  ⟨by decide,
    unknown_fields_top_ignored_nested_rejected
      [("trigger", .str "submit-message"), ("id", .str "r1"), ("messages", .arr []),
       ("model", .str "openai:gpt-4.1"), ("webSearch", .bool true)]
      "bogus" (.num 1) (by decide)⟩
